import Mathlib

/-!
Shallow embedding of `src/components/Table.tsx` (ArtworksTable): a paginated
data browser over a remote paged collection with a cross-page selection set.

The React component's state hooks become fields of `TableState`; the remote
endpoint becomes an explicit `Fetcher` parameter returning `Option` (with
`none` standing for a failed or malformed response, which the JS code turns
into an empty record list via its catch block); the `onSelectRows` while-loop
becomes `selectGo`, structural recursion on an iteration budget `fuel` that is
supplied by `onSelectRowsResult` at the bound the loop's page counter enforces
(the budget never runs out at that bound: see `selectGo_fuel_irrel`).
-/

/-- Record type of the table (interface `Artwork` in the source). -/
structure Artwork where
  id : ℕ
  title : String
  place_of_origin : String
  artist_display : String
  inscriptions : String
  date_start : Int
  date_end : Int
deriving DecidableEq, Repr

/-- Pagination state (interface `LazyState` in the source): zero-based offset
`first`, page size `rows`, 1-based page index `page`. -/
structure LazyState where
  first : ℕ
  rows : ℕ
  page : ℕ
deriving DecidableEq, Repr

/-- The React component's state hooks: `artworks`, `loading`, `totalRecords`,
`lazyState`, `selectedIds`. -/
structure TableState where
  artworks : List Artwork
  loading : Bool
  totalRecords : ℕ
  lazyState : LazyState
  selectedIds : Finset ℕ

/-- The remote paged endpoint: page index and page size to a page of records
plus the reported total, or `none` when the call fails or the payload is
malformed (both are caught by `fetchData`). -/
def Fetcher : Type := ℕ → ℕ → Option (List Artwork × ℕ)

/-- Embeds `fetchData(first, rows, page)`: sets `loading` for the duration of
the call (cleared in the `finally` block on every path), on success stores the
reported total and returns the page's records, on failure returns `[]` and
leaves `totalRecords` unchanged. The `first` argument is unused, as in the
source. -/
def fetchData (f : Fetcher) (first rows page : ℕ) (s : TableState) :
    List Artwork × TableState :=
  let s1 : TableState := { s with loading := true }
  match f page rows with
  | some (artworkData, total) =>
      (artworkData, { s1 with totalRecords := total, loading := false })
  | none => ([], { s1 with loading := false })

/-- Embeds the `useEffect` on `[lazyState]`: run `fetchData` at the current
lazy state and store its result into `artworks`. -/
def lazyStateEffect (f : Fetcher) (s : TableState) : TableState :=
  let r := fetchData f s.lazyState.first s.lazyState.rows s.lazyState.page s
  { r.2 with artworks := r.1 }

/-- Embeds `onPage(event)`: update `first`, `rows`, and recompute
`page = floor(first / rows) + 1`. -/
def onPage (eventFirst eventRows : ℕ) (s : TableState) : TableState :=
  { s with lazyState :=
      { first := eventFirst, rows := eventRows,
        page := eventFirst / eventRows + 1 } }

/-- A full page change as the user sees it: the `onPage` handler followed by
the `useEffect` fetch it triggers. -/
def pageChange (f : Fetcher) (eventFirst eventRows : ℕ) (s : TableState) :
    TableState :=
  lazyStateEffect f (onPage eventFirst eventRows s)

/-- Embeds `isSelected(id)`: membership in the `selectedIds` state hook. -/
def isSelected (selectedIds : Finset ℕ) (id : ℕ) : Bool :=
  decide (id ∈ selectedIds)

/-- Number of pages the bulk-selection loop will consider:
`Math.ceil(totalRecords / rows)`. -/
def numPages (totalRecords rows : ℕ) : ℕ := (totalRecords + rows - 1) / rows

/-- Records the loop sees for a fetched page: the fetched data on success, the
empty list when the fetch fails (the catch block of `fetchData`). -/
def fetchedRecords (f : Fetcher) (page rows : ℕ) : List Artwork :=
  match f page rows with
  | some (artworkData, _) => artworkData
  | none => []

/-- The body of the `onSelectRows` while-loop. The captured render-time state
(`startPage = lazyState.page`, `rows`, `totalRecords`, `artworks`,
`selectedIds`) is fixed for the whole run — in particular the
`!isSelected(artwork.id)` filter always consults `selectedIds`, never the
accumulating `updatedSelection`. `fuel` bounds the number of iterations; the
loop itself stops when `remainingToSelect` hits `0` or `currentPage` passes
`numPages`, and `onSelectRowsResult` supplies enough fuel for that
(see `selectGo_fuel_irrel`). -/
def selectGo (f : Fetcher) (startPage rows totalRecords : ℕ)
    (artworks : List Artwork) (selectedIds : Finset ℕ) :
    ℕ → ℕ → ℕ → Finset ℕ → Finset ℕ
  | 0, _, _, updatedSelection => updatedSelection
  | fuel + 1, remainingToSelect, currentPage, updatedSelection =>
    if remainingToSelect = 0 then updatedSelection
    else
      let pageArtworks :=
        if currentPage = startPage then artworks
        else fetchedRecords f currentPage rows
      let unselectedArtworks :=
        pageArtworks.filter fun a => ! isSelected selectedIds a.id
      let rowsToSelect := unselectedArtworks.take remainingToSelect
      let updated :=
        rowsToSelect.foldl (fun acc a => insert a.id acc) updatedSelection
      let remaining := remainingToSelect - rowsToSelect.length
      if currentPage + 1 > numPages totalRecords rows then updated
      else
        selectGo f startPage rows totalRecords artworks selectedIds
          fuel remaining (currentPage + 1) updated

/-- Embeds `onSelectRows`: the selection set after the bulk-selection loop,
run from the component state `s` with requested count `rowCountToSelect`
(an `Int`: the JS loop condition `remainingToSelect > 0` makes any
non-positive request a no-op, which `Int.toNat` captures). -/
def onSelectRowsResult (f : Fetcher) (rowCountToSelect : Int)
    (s : TableState) : Finset ℕ :=
  selectGo f s.lazyState.page s.lazyState.rows s.totalRecords s.artworks
    s.selectedIds
    (numPages s.totalRecords s.lazyState.rows - s.lazyState.page + 2)
    rowCountToSelect.toNat s.lazyState.page s.selectedIds

/-- Embeds `onSelectAll(e)`: checked adds every visible artwork's id to the
selection, unchecked deletes every visible artwork's id. -/
def onSelectAll (checked : Bool) (s : TableState) : TableState :=
  if checked then
    { s with selectedIds :=
        s.artworks.foldl (fun acc a => insert a.id acc) s.selectedIds }
  else
    { s with selectedIds :=
        s.artworks.foldl (fun acc a => acc.erase a.id) s.selectedIds }

/-- Embeds the header checkbox's `checked` binding:
`artworks.length > 0 && artworks.every(a => selectedIds.has(a.id))`. -/
def headerChecked (s : TableState) : Bool :=
  decide (0 < s.artworks.length) &&
    s.artworks.all fun a => isSelected s.selectedIds a.id

/-! Concrete fixtures used to exercise the definitions. -/

/-- An artwork whose identity is `n`; display fields are immaterial to every
operation under study. -/
def mkArtwork (n : ℕ) : Artwork :=
  ⟨n, "", "", "", "", 0, 0⟩

/-- A ground-truth remote collection of `n` records with ids `1..n`. -/
def testCollection (n : ℕ) : List Artwork :=
  (List.range n).map fun i => mkArtwork (i + 1)

/-- The slice of the collection a well-behaved endpoint serves for 1-based
page `p` at page size `rows`. -/
def pageSlice (collection : List Artwork) (rows p : ℕ) : List Artwork :=
  (collection.drop ((p - 1) * rows)).take rows

/-- A fully reliable endpoint over `collection`: every fetch succeeds and
reports the accurate total. -/
def sliceFetcher (collection : List Artwork) : Fetcher :=
  fun p rows => some (pageSlice collection rows p, collection.length)

/-- An endpoint over `collection` whose fetch of page `bad` fails; every other
page is served faithfully. -/
def failPageFetcher (collection : List Artwork) (bad : ℕ) : Fetcher :=
  fun p rows =>
    if p = bad then none
    else some (pageSlice collection rows p, collection.length)

/-- The component state right after a successful load of page `p` of
`collection` at page size `rows`, with prior selection `sel`. -/
def loadedState (collection : List Artwork) (rows p : ℕ) (sel : Finset ℕ) :
    TableState :=
  { artworks := pageSlice collection rows p, loading := false,
    totalRecords := collection.length,
    lazyState := { first := (p - 1) * rows, rows := rows, page := p },
    selectedIds := sel }

/-- An endpoint that serves the record with id `1` on both page 1 and page 2,
and the record with id `2` on page 3, reporting a total of 3 at page size 1:
the same id appears on two distinct fetched pages. -/
def dupFetcher : Fetcher := fun p _rows =>
  if p = 1 then some ([mkArtwork 1], 3)
  else if p = 2 then some ([mkArtwork 1], 3)
  else some ([mkArtwork 2], 3)

/-- State after loading page 1 from `dupFetcher`: one visible record (id 1),
page size 1, total 3, nothing selected. -/
def dupState : TableState :=
  { artworks := [mkArtwork 1], loading := false, totalRecords := 3,
    lazyState := { first := 0, rows := 1, page := 1 }, selectedIds := ∅ }

/-- A state whose single visible record (id 1) is already selected. -/
def roundTripState : TableState :=
  { artworks := [mkArtwork 1], loading := false, totalRecords := 1,
    lazyState := { first := 0, rows := 10, page := 1 }, selectedIds := {1} }

/-- A state with visible records and a selection disjoint from them. -/
def disjointPageState : TableState :=
  { artworks := [mkArtwork 1, mkArtwork 2], loading := false, totalRecords := 2,
    lazyState := { first := 0, rows := 10, page := 1 }, selectedIds := {5} }

/-- A state currently displaying a record, about to change page. -/
def displayedState : TableState :=
  { artworks := [mkArtwork 1], loading := false, totalRecords := 40,
    lazyState := { first := 0, rows := 10, page := 1 }, selectedIds := {1} }

/-- An endpoint for which every remote call fails. -/
def alwaysFail : Fetcher := fun _p _rows => none

/-- A state whose loaded page is empty (for example before any fetch has
succeeded). -/
def emptyPageState : TableState :=
  { artworks := [], loading := false, totalRecords := 0,
    lazyState := { first := 0, rows := 10, page := 1 }, selectedIds := ∅ }

/-! Helper lemmas about the embedded operations. -/

lemma foldl_insert_eq (l : List Artwork) (s : Finset ℕ) :
    l.foldl (fun acc a => insert a.id acc) s =
      s ∪ (l.map fun a => a.id).toFinset := by
  induction l generalizing s with
  | nil => simp
  | cons a l ih =>
      simp only [List.foldl_cons, ih, List.map_cons, List.toFinset_cons]
      ext x
      simp only [Finset.mem_union, Finset.mem_insert, List.mem_toFinset]
      tauto

lemma foldl_erase_eq (l : List Artwork) (s : Finset ℕ) :
    l.foldl (fun acc a => acc.erase a.id) s =
      s \ (l.map fun a => a.id).toFinset := by
  induction l generalizing s with
  | nil => simp
  | cons a l ih =>
      simp only [List.foldl_cons, ih, List.map_cons, List.toFinset_cons]
      ext x
      simp only [Finset.mem_sdiff, Finset.mem_erase, Finset.mem_insert,
        List.mem_toFinset]
      tauto

lemma selectGo_zero (f : Fetcher) (sp rows tot : ℕ) (art : List Artwork)
    (sel : Finset ℕ) (fuel cp : ℕ) (upd : Finset ℕ) :
    selectGo f sp rows tot art sel fuel 0 cp upd = upd := by
  cases fuel <;> simp [selectGo]

lemma subset_selectGo (f : Fetcher) (sp rows tot : ℕ) (art : List Artwork)
    (sel : Finset ℕ) :
    ∀ fuel rem cp upd, upd ⊆ selectGo f sp rows tot art sel fuel rem cp upd := by
  intro fuel
  induction fuel with
  | zero => intro rem cp upd; simp [selectGo]
  | succ n ih =>
      intro rem cp upd
      simp only [selectGo, foldl_insert_eq]
      split
      · exact subset_rfl
      · split
        · exact Finset.subset_union_left
        · exact Finset.subset_union_left.trans (ih _ _ _)

lemma selectGo_fuel_irrel (f : Fetcher) (sp rows tot : ℕ) (art : List Artwork)
    (sel : Finset ℕ) :
    ∀ fuel₁ fuel₂ rem cp upd,
      numPages tot rows - cp + 2 ≤ fuel₁ → fuel₁ ≤ fuel₂ →
      selectGo f sp rows tot art sel fuel₁ rem cp upd =
        selectGo f sp rows tot art sel fuel₂ rem cp upd := by
  intro fuel₁
  induction fuel₁ with
  | zero => intro fuel₂ rem cp upd h1 h2; omega
  | succ n ih =>
      intro fuel₂ rem cp upd h1 h2
      obtain ⟨m, rfl⟩ : ∃ m, fuel₂ = m + 1 := ⟨fuel₂ - 1, by omega⟩
      simp only [selectGo]
      split
      · rfl
      · split
        · rfl
        · exact ih m _ _ _ (by omega) (by omega)

lemma le_numPages_mul (total rows : ℕ) (hrows : 0 < rows) :
    total ≤ numPages total rows * rows := by
  rcases Nat.eq_zero_or_pos total with h | h
  · simp [h]
  · have h1 : total + rows - 1 = total - 1 + rows := by omega
    have h2 : numPages total rows = (total - 1) / rows + 1 := by
      rw [numPages, h1, Nat.add_div_right _ hrows]
    have h3 : (total - 1) / rows < numPages total rows := by omega
    have h4 : total - 1 < numPages total rows * rows :=
      (Nat.div_lt_iff_lt_mul hrows).mp h3
    omega

lemma drop_pageSlice_split (L : List Artwork) (rows cp : ℕ) (hcp : 1 ≤ cp) :
    L.drop ((cp - 1) * rows) = pageSlice L rows cp ++ L.drop (cp * rows) := by
  obtain ⟨d, rfl⟩ : ∃ d, cp = d + 1 := ⟨cp - 1, by omega⟩
  have hmul : d * rows + rows = (d + 1) * rows := by ring
  rw [pageSlice]
  conv_lhs => rw [← List.take_append_drop rows (L.drop (((d + 1) - 1) * rows))]
  rw [List.drop_drop]
  simp only [Nat.add_sub_cancel]
  rw [hmul]

lemma drop_past_end (L : List Artwork) (rows cp : ℕ) (hrows : 0 < rows)
    (hcp : numPages L.length rows ≤ cp) : L.drop (cp * rows) = [] := by
  apply List.drop_eq_nil_of_le
  calc L.length ≤ numPages L.length rows * rows := le_numPages_mul _ _ hrows
  _ ≤ cp * rows := Nat.mul_le_mul_right rows hcp

lemma selectGo_tail (L : List Artwork) (f : Fetcher) (sp rows : ℕ)
    (art : List Artwork) (sel : Finset ℕ)
    (hrows : 0 < rows)
    (hf : ∀ p, fetchedRecords f p rows = pageSlice L rows p) :
    ∀ fuel cp rem upd, sp < cp →
      numPages L.length rows - cp + 2 ≤ fuel →
      selectGo f sp rows L.length art sel fuel rem cp upd =
        upd ∪ ((((L.drop ((cp - 1) * rows)).filter fun a =>
            ! isSelected sel a.id).take rem).map fun a => a.id).toFinset := by
  intro fuel
  induction fuel with
  | zero => intro cp rem upd h1 h2; omega
  | succ n ih =>
      intro cp rem upd hcp hfuel
      rcases Nat.eq_zero_or_pos rem with hrem | hrem
      · subst hrem
        rw [selectGo_zero]
        simp
      · have hne : ¬ rem = 0 := by omega
        have hpage : (if cp = sp then art else fetchedRecords f cp rows) =
            pageSlice L rows cp := by
          rw [if_neg (by omega), hf]
        simp only [selectGo]
        rw [if_neg hne, hpage]
        rw [drop_pageSlice_split L rows cp (by omega), List.filter_append,
          List.take_append_eq_append_take, List.map_append, List.toFinset_append]
        by_cases hbr : cp + 1 > numPages L.length rows
        · rw [if_pos hbr]
          rw [drop_past_end L rows cp hrows (by omega)]
          simp [foldl_insert_eq]
        · rw [if_neg hbr]
          rw [ih _ _ _ (by omega) (by omega)]
          simp only [Nat.add_sub_cancel]
          rw [foldl_insert_eq]
          have h2 : rem - (List.take rem ((pageSlice L rows cp).filter fun a =>
              ! isSelected sel a.id)).length =
              rem - ((pageSlice L rows cp).filter fun a =>
                ! isSelected sel a.id).length := by
            rw [List.length_take]; omega
          rw [h2, Finset.union_assoc]

lemma selectGo_start (L : List Artwork) (f : Fetcher) (sp rows : ℕ)
    (sel : Finset ℕ) (hrows : 0 < rows) (hsp : 1 ≤ sp)
    (hf : ∀ p, fetchedRecords f p rows = pageSlice L rows p) :
    ∀ fuel rem upd,
      numPages L.length rows - sp + 2 ≤ fuel →
      selectGo f sp rows L.length (pageSlice L rows sp) sel fuel rem sp upd =
        upd ∪ ((((L.drop ((sp - 1) * rows)).filter fun a =>
            ! isSelected sel a.id).take rem).map fun a => a.id).toFinset := by
  intro fuel rem upd hfuel
  obtain ⟨n, rfl⟩ : ∃ n, fuel = n + 1 := ⟨fuel - 1, by omega⟩
  rcases Nat.eq_zero_or_pos rem with hrem | hrem
  · subst hrem
    rw [selectGo_zero]
    simp
  · have hne : ¬ rem = 0 := by omega
    simp only [selectGo]
    rw [if_neg hne]
    simp only [if_true]
    rw [drop_pageSlice_split L rows sp (by omega), List.filter_append,
      List.take_append_eq_append_take, List.map_append, List.toFinset_append]
    by_cases hbr : sp + 1 > numPages L.length rows
    · rw [if_pos hbr]
      rw [drop_past_end L rows sp hrows (by omega)]
      simp [foldl_insert_eq]
    · rw [if_neg hbr]
      rw [selectGo_tail L f sp rows _ sel hrows hf _ _ _ _ (by omega) (by omega)]
      simp only [Nat.add_sub_cancel]
      rw [foldl_insert_eq]
      have h2 : rem - (List.take rem ((pageSlice L rows sp).filter fun a =>
          ! isSelected sel a.id)).length =
          rem - ((pageSlice L rows sp).filter fun a =>
            ! isSelected sel a.id).length := by
        rw [List.length_take]; omega
      rw [h2, Finset.union_assoc]

/-- Characterization of the bulk-selection loop against a well-behaved
endpoint serving slices of a ground-truth `collection`: starting from a state
whose current page holds that page's slice and whose total is accurate, the
run adds exactly the ids of the first `k` not-yet-selected records, in
server order, of the part of the collection from the current page onward. -/
theorem onSelectRowsResult_eq (L : List Artwork) (f : Fetcher) (k : Int)
    (s : TableState) (hrows : 0 < s.lazyState.rows)
    (hsp : 1 ≤ s.lazyState.page)
    (hf : ∀ p, fetchedRecords f p s.lazyState.rows = pageSlice L s.lazyState.rows p)
    (hart : s.artworks = pageSlice L s.lazyState.rows s.lazyState.page)
    (htot : s.totalRecords = L.length) :
    onSelectRowsResult f k s =
      s.selectedIds ∪
        ((((L.drop ((s.lazyState.page - 1) * s.lazyState.rows)).filter fun a =>
          ! isSelected s.selectedIds a.id).take k.toNat).map
            fun a => a.id).toFinset := by
  rw [onSelectRowsResult, hart, htot]
  exact selectGo_start L f s.lazyState.page s.lazyState.rows s.selectedIds
    hrows hsp hf _ _ _ (le_refl _)

/-- Cardinality form of `onSelectRowsResult_eq`: with globally distinct record
ids, the run grows the selection by exactly `min k u`, where `u` counts the
not-yet-selected records from the current page onward. -/
theorem onSelectRowsResult_card (L : List Artwork) (f : Fetcher) (k : Int)
    (s : TableState) (hrows : 0 < s.lazyState.rows)
    (hsp : 1 ≤ s.lazyState.page)
    (hf : ∀ p, fetchedRecords f p s.lazyState.rows = pageSlice L s.lazyState.rows p)
    (hart : s.artworks = pageSlice L s.lazyState.rows s.lazyState.page)
    (htot : s.totalRecords = L.length)
    (hnodup : (L.map fun a => a.id).Nodup) :
    (onSelectRowsResult f k s).card =
      s.selectedIds.card +
        min k.toNat
          (((L.drop ((s.lazyState.page - 1) * s.lazyState.rows)).filter fun a =>
            ! isSelected s.selectedIds a.id).length) := by
  rw [onSelectRowsResult_eq L f k s hrows hsp hf hart htot]
  have h1 : (((L.drop ((s.lazyState.page - 1) * s.lazyState.rows)).filter fun a =>
      ! isSelected s.selectedIds a.id).take k.toNat).Sublist L :=
    ((List.take_sublist _ _).trans (List.filter_sublist _)).trans
      (List.drop_sublist _ _)
  have hnodupT : ((((L.drop ((s.lazyState.page - 1) * s.lazyState.rows)).filter
      fun a => ! isSelected s.selectedIds a.id).take k.toNat).map
        fun a => a.id).Nodup :=
    List.Nodup.sublist (List.Sublist.map _ h1) hnodup
  have hdisj : Disjoint s.selectedIds
      ((((L.drop ((s.lazyState.page - 1) * s.lazyState.rows)).filter fun a =>
        ! isSelected s.selectedIds a.id).take k.toNat).map
          fun a => a.id).toFinset := by
    rw [Finset.disjoint_right]
    intro x hx hxmem
    rw [List.mem_toFinset, List.mem_map] at hx
    obtain ⟨a, haT, rfl⟩ := hx
    have haR := (List.take_sublist _ _).subset haT
    have hp := List.of_mem_filter haR
    simp only [isSelected, Bool.not_eq_eq_eq_not, Bool.not_true,
      decide_eq_false_iff_not] at hp
    exact hp hxmem
  rw [Finset.card_union_of_disjoint hdisj, List.toFinset_card_of_nodup hnodupT,
    List.length_map, List.length_take]

lemma onSelectRowsResult_nonpos (f : Fetcher) (k : Int) (s : TableState)
    (hk : k ≤ 0) : onSelectRowsResult f k s = s.selectedIds := by
  rw [onSelectRowsResult, Int.toNat_of_nonpos hk, selectGo_zero]

lemma selectGo_acc (f : Fetcher) (sp rows tot : ℕ) (art : List Artwork)
    (sel : Finset ℕ) :
    ∀ fuel rem cp upd,
      selectGo f sp rows tot art sel fuel rem cp upd =
        upd ∪ selectGo f sp rows tot art sel fuel rem cp ∅ := by
  intro fuel
  induction fuel with
  | zero => intro rem cp upd; simp [selectGo]
  | succ n ih =>
      intro rem cp upd
      simp only [selectGo]
      split
      · simp
      · split
        · rw [foldl_insert_eq, foldl_insert_eq]
          simp
        · rw [ih _ _ (List.foldl _ _ _), ih _ _ (List.foldl _ _ _),
            foldl_insert_eq, foldl_insert_eq]
          simp [Finset.union_assoc]

/-! Claim theorems. -/

/-- C1 counterexample: with a 50-record collection (5 pages of 10), `k = 25`,
pages 1 and 2 fully unselected, and the fetch of page 3 failing, the run does
not stop at the failing fetch: it still selects 5 records from page 4 (id 31
among them) and finishes with 25 selected, not the claimed 20. -/
theorem C1_counterexample :
    (onSelectRowsResult (failPageFetcher (testCollection 50) 3) 25
        (loadedState (testCollection 50) 10 1 ∅)).card = 25 ∧
    (onSelectRowsResult (failPageFetcher (testCollection 50) 3) 25
        (loadedState (testCollection 50) 10 1 ∅)).card ≠ 20 ∧
    31 ∈ onSelectRowsResult (failPageFetcher (testCollection 50) 3) 25
        (loadedState (testCollection 50) 10 1 ∅) := by
  refine ⟨by decide, by decide, by decide⟩

/-- C1 (amended): a failing fetch inside the bulk-selection loop contributes
no records from the failing page and never rolls back prior additions — the
result always contains the starting selection — but the loop does not stop
there: it continues with subsequent pages. The claimed concrete outcome
(count 20 for `k = 25` with pages 1–2 of 10 unselected each and page 3
failing) holds exactly when no page follows the failing one, e.g. for a
30-record collection. -/
theorem C1_theorem :
    (∀ (f : Fetcher) (k : Int) (s : TableState),
      s.selectedIds ⊆ onSelectRowsResult f k s) ∧
    (onSelectRowsResult (failPageFetcher (testCollection 30) 3) 25
        (loadedState (testCollection 30) 10 1 ∅)).card = 20 := by
  constructor
  · intro f k s
    unfold onSelectRowsResult
    apply subset_selectGo
  · decide

/-- C2 counterexample: bulk selection starts at the current page, so records
on earlier pages are unreachable. With a 2-record collection at page size 1,
current page 2, nothing selected and `k = 2`, only the record of page 2 is
selected: cardinality grows by 1, not by
`min(k, totalUnselectedAcrossCollection) = 2`. -/
theorem C2_counterexample :
    (onSelectRowsResult (sliceFetcher (testCollection 2)) 2
        (loadedState (testCollection 2) 1 2 ∅)).card ≠
      (loadedState (testCollection 2) 1 2 ∅).selectedIds.card +
        min (Int.toNat 2)
          (((testCollection 2).filter fun a =>
            ! isSelected (loadedState (testCollection 2) 1 2 ∅).selectedIds
              a.id).length) := by
  decide

/-- C2 (amended): against a consistent endpoint over a collection with
distinct ids, a bulk selection of `k` increases the selection cardinality by
exactly `min(k, u)` where `u` counts the unselected records from the current
page onward (not across the whole collection); already-selected records are
filtered out before counting toward `k`, and `k ≤ 0` leaves the selection
membership unchanged. -/
theorem C2_theorem (L : List Artwork) (f : Fetcher) (k : Int) (s : TableState)
    (hrows : 0 < s.lazyState.rows) (hsp : 1 ≤ s.lazyState.page)
    (hf : ∀ p, fetchedRecords f p s.lazyState.rows =
      pageSlice L s.lazyState.rows p)
    (hart : s.artworks = pageSlice L s.lazyState.rows s.lazyState.page)
    (htot : s.totalRecords = L.length)
    (hnodup : (L.map fun a => a.id).Nodup) :
    (onSelectRowsResult f k s).card =
      s.selectedIds.card +
        min k.toNat
          (((L.drop ((s.lazyState.page - 1) * s.lazyState.rows)).filter fun a =>
            ! isSelected s.selectedIds a.id).length) ∧
    (k ≤ 0 → onSelectRowsResult f k s = s.selectedIds) :=
  ⟨onSelectRowsResult_card L f k s hrows hsp hf hart htot hnodup,
   fun hk => onSelectRowsResult_nonpos f k s hk⟩

/-- C2 witness: 50 records, page size 10, current page 1, ids 3 and 7 already
selected, `k = 5`: the count becomes `2 + min 5 48 = 7`. -/
theorem C2_witness :
    (onSelectRowsResult (sliceFetcher (testCollection 50)) 5
        (loadedState (testCollection 50) 10 1 {3, 7})).card = 7 := by
  have h := (C2_theorem (testCollection 50) (sliceFetcher (testCollection 50))
    5 (loadedState (testCollection 50) 10 1 {3, 7}) (by decide) (by decide)
    (fun p => rfl) rfl rfl (by decide)).1
  rw [h]
  decide

/-- C3: against a consistent endpoint over collection `L`, the bulk selection
adds exactly the ids of the first `k` not-yet-selected records, in
server-returned order, of the part of `L` from the current page onward — on
each visited page this takes the first `min(remaining, count(filtered))`
unselected records in page order, since consecutive pages concatenate to that
suffix of `L`. -/
theorem C3_theorem (L : List Artwork) (f : Fetcher) (k : Int) (s : TableState)
    (hrows : 0 < s.lazyState.rows) (hsp : 1 ≤ s.lazyState.page)
    (hf : ∀ p, fetchedRecords f p s.lazyState.rows =
      pageSlice L s.lazyState.rows p)
    (hart : s.artworks = pageSlice L s.lazyState.rows s.lazyState.page)
    (htot : s.totalRecords = L.length) :
    onSelectRowsResult f k s =
      s.selectedIds ∪
        ((((L.drop ((s.lazyState.page - 1) * s.lazyState.rows)).filter fun a =>
          ! isSelected s.selectedIds a.id).take k.toNat).map
            fun a => a.id).toFinset :=
  onSelectRowsResult_eq L f k s hrows hsp hf hart htot

/-- C3 witness: 50 records, page size 10, `selectCount(15)` from page 1 with
page 1 loaded and nothing selected picks exactly the first 15 records — all
10 of page 1 and the first 5 of page 2 — and the count is 15. -/
theorem C3_witness :
    onSelectRowsResult (sliceFetcher (testCollection 50)) 15
        (loadedState (testCollection 50) 10 1 ∅) =
      (((testCollection 50).take 15).map fun a => a.id).toFinset ∧
    (onSelectRowsResult (sliceFetcher (testCollection 50)) 15
        (loadedState (testCollection 50) 10 1 ∅)).card = 15 := by
  have h := C3_theorem (testCollection 50) (sliceFetcher (testCollection 50))
    15 (loadedState (testCollection 50) 10 1 ∅) (by decide) (by decide)
    (fun p => rfl) rfl rfl
  constructor
  · rw [h]; decide
  · rw [h]; decide

/-- C4 counterexample: with the single visible record (id 1) already
selected, checking then unchecking the select-all box removes it: the round
trip does not restore the prior selection set. -/
theorem C4_counterexample :
    (onSelectAll false (onSelectAll true roundTripState)).selectedIds ≠
      roundTripState.selectedIds := by
  decide

/-- C4 (amended): checking then unchecking the select-all box leaves the
selection equal to the prior selection minus the visible ids — previously
selected visible records are lost; the round trip restores the prior set
exactly when no visible id was selected beforehand. -/
theorem C4_theorem (s : TableState) :
    (onSelectAll false (onSelectAll true s)).selectedIds =
      s.selectedIds \ (s.artworks.map fun a => a.id).toFinset ∧
    (Disjoint s.selectedIds (s.artworks.map fun a => a.id).toFinset →
      (onSelectAll false (onSelectAll true s)).selectedIds = s.selectedIds) := by
  have h1 : (onSelectAll false (onSelectAll true s)).selectedIds =
      (s.selectedIds ∪ (s.artworks.map fun a => a.id).toFinset) \
        (s.artworks.map fun a => a.id).toFinset := by
    simp [onSelectAll, foldl_insert_eq, foldl_erase_eq]
  constructor
  · rw [h1]
    ext x
    simp only [Finset.mem_sdiff, Finset.mem_union]
    tauto
  · intro hd
    rw [h1]
    ext x
    simp only [Finset.mem_sdiff, Finset.mem_union]
    constructor
    · rintro ⟨hx | hx, hnx⟩
      · exact hx
      · exact absurd hx hnx
    · intro hx
      exact ⟨Or.inl hx, fun hxB => Finset.disjoint_left.mp hd hx hxB⟩

/-- C4 witness: selection `{5}` disjoint from the visible ids `1, 2`; the
select-all round trip restores `{5}` exactly. -/
theorem C4_witness :
    (onSelectAll false (onSelectAll true disjointPageState)).selectedIds =
      disjointPageState.selectedIds :=
  (C4_theorem disjointPageState).2 (by rw [Finset.disjoint_left]; decide)

/-- C5 counterexample: on a failed page-change fetch the previously displayed
records are not left unchanged — the `useEffect` stores the empty result,
clearing the display. -/
theorem C5_counterexample :
    (pageChange alwaysFail 0 10 displayedState).artworks ≠
      displayedState.artworks := by
  decide

/-- C5 (amended): when the page-change fetch fails, the caller receives an
empty record sequence, the stored total and the selection are unchanged, but
the displayed records are replaced by that empty sequence rather than kept. -/
theorem C5_theorem (f : Fetcher) (eventFirst eventRows : ℕ) (s : TableState)
    (hfail : f (eventFirst / eventRows + 1) eventRows = none) :
    (fetchData f eventFirst eventRows (eventFirst / eventRows + 1)
      (onPage eventFirst eventRows s)).1 = [] ∧
    (pageChange f eventFirst eventRows s).totalRecords = s.totalRecords ∧
    (pageChange f eventFirst eventRows s).artworks = [] ∧
    (pageChange f eventFirst eventRows s).selectedIds = s.selectedIds := by
  refine ⟨?_, ?_, ?_, ?_⟩ <;>
    simp [pageChange, lazyStateEffect, onPage, fetchData, hfail]

/-- C5 witness: a page change to offset 0 at page size 10 against an endpoint
that always fails, from a state displaying one record with id 1 selected. -/
theorem C5_witness :
    (fetchData alwaysFail 0 10 1 (onPage 0 10 displayedState)).1 = [] ∧
    (pageChange alwaysFail 0 10 displayedState).totalRecords =
      displayedState.totalRecords ∧
    (pageChange alwaysFail 0 10 displayedState).artworks = [] ∧
    (pageChange alwaysFail 0 10 displayedState).selectedIds =
      displayedState.selectedIds :=
  C5_theorem alwaysFail 0 10 displayedState rfl

/-- C6: the bulk-selection loop terminates within its page bound for every
input — any iteration budget of at least `numPages - page + 2` produces the
same result as the run itself, i.e. the loop always reaches one of its stop
conditions (`remaining = 0` or the page counter passing
`ceil(totalRecords/pageSize)`) within that many iterations; and when `k`
exceeds the total (k = 1000 against 50 records, none selected) the run ends
with every record selected, by exhaustion, without error. -/
theorem C6_theorem :
    (∀ (f : Fetcher) (k : Int) (s : TableState) (fuel : ℕ),
      numPages s.totalRecords s.lazyState.rows - s.lazyState.page + 2 ≤ fuel →
      selectGo f s.lazyState.page s.lazyState.rows s.totalRecords s.artworks
          s.selectedIds fuel k.toNat s.lazyState.page s.selectedIds =
        onSelectRowsResult f k s) ∧
    onSelectRowsResult (sliceFetcher (testCollection 50)) 1000
        (loadedState (testCollection 50) 10 1 ∅) =
      ((testCollection 50).map fun a => a.id).toFinset := by
  constructor
  · intro f k s fuel hfuel
    unfold onSelectRowsResult
    exact (selectGo_fuel_irrel f s.lazyState.page s.lazyState.rows
      s.totalRecords s.artworks s.selectedIds _ fuel _ _ _ (le_refl _)
      hfuel).symm
  · decide

/-- C6 witness: at iteration budget 100 (well above the bound) the loop for
`k = 1000` over the 50-record collection returns exactly the run's result. -/
theorem C6_witness :
    selectGo (sliceFetcher (testCollection 50)) 1 10 (testCollection 50).length
        (pageSlice (testCollection 50) 10 1) ∅ 100 (Int.toNat 1000) 1 ∅ =
      onSelectRowsResult (sliceFetcher (testCollection 50)) 1000
        (loadedState (testCollection 50) 10 1 ∅) :=
  C6_theorem.1 (sliceFetcher (testCollection 50)) 1000
    (loadedState (testCollection 50) 10 1 ∅) 100 (by decide)

/-- C7: neither `fetchData` itself nor a full page change (the `onPage`
handler plus the fetch it triggers) ever mutates the selection set, for every
fetcher, page-change event and starting state. -/
theorem C7_theorem :
    (∀ (f : Fetcher) (first rows page : ℕ) (s : TableState),
      (fetchData f first rows page s).2.selectedIds = s.selectedIds) ∧
    (∀ (f : Fetcher) (eventFirst eventRows : ℕ) (s : TableState),
      (pageChange f eventFirst eventRows s).selectedIds = s.selectedIds) := by
  constructor
  · intro f first rows page s
    rcases h : f page rows with _ | ⟨l, t⟩ <;> simp [fetchData, h]
  · intro f eventFirst eventRows s
    rcases h : f (eventFirst / eventRows + 1) eventRows with _ | ⟨l, t⟩ <;>
      simp [pageChange, lazyStateEffect, onPage, fetchData, h]

/-- C1 witness: with every remote call failing and the only visible record
already selected, the run still contains the prior selection. -/
theorem C1_witness :
    displayedState.selectedIds ⊆
      onSelectRowsResult alwaysFail 5 displayedState :=
  C1_theorem.1 alwaysFail 5 displayedState

/-- C8 counterexample: on an empty loaded page the header checkbox is
unchecked even though every (vacuously, no) visible record's id is selected:
the claimed equivalence fails for the empty visible list. -/
theorem C8_counterexample :
    headerChecked emptyPageState = false ∧
    (emptyPageState.artworks.all fun a =>
      isSelected emptyPageState.selectedIds a.id) = true := by
  refine ⟨by decide, by decide⟩

/-- C8 (amended): the header checkbox is checked if and only if the visible
record list is nonempty and every visible record's id is selected; for an
empty page it is unchecked although the every-quantification is vacuously
true. -/
theorem C8_theorem (s : TableState) :
    headerChecked s = true ↔
      s.artworks ≠ [] ∧ ∀ a ∈ s.artworks, a.id ∈ s.selectedIds := by
  simp [headerChecked, isSelected, List.all_eq_true, List.length_pos]

/-- C8 witness: one visible record with id 1, selection `{1}`: nonempty and
all selected, so the box is checked. -/
theorem C8_witness : headerChecked roundTripState = true :=
  (C8_theorem roundTripState).mpr ⟨by decide, by decide⟩

/-- C9: after `fetchData` completes the loading flag is false on every path —
success, remote failure and malformed payload alike — because the source
clears it in a `finally` block. -/
theorem C9_theorem (f : Fetcher) (first rows page : ℕ) (s : TableState) :
    (fetchData f first rows page s).2.loading = false := by
  rcases h : f page rows with _ | ⟨l, t⟩ <;> simp [fetchData, h]

/-- C10: the bulk-selection loop's filter consults the selection as it was
when the run began: the accumulating set never influences which records are
taken or how many count against `k` (first conjunct: the accumulator can be
split off the run). Consequently, when the same id appears on two fetched
pages (`dupFetcher` serves id 1 on pages 1 and 2 and id 2 on page 3), a run
with `k = 2` consumes the duplicate twice against `k` yet adds it once: the
result is `{1}`, id 2 staying unselected although available on page 3. -/
theorem C10_theorem :
    (∀ (f : Fetcher) (sp rows tot : ℕ) (art : List Artwork) (sel : Finset ℕ)
        (fuel rem cp : ℕ) (upd : Finset ℕ),
      selectGo f sp rows tot art sel fuel rem cp upd =
        upd ∪ selectGo f sp rows tot art sel fuel rem cp ∅) ∧
    onSelectRowsResult dupFetcher 2 dupState = {1} ∧
    2 ∉ onSelectRowsResult dupFetcher 2 dupState ∧
    fetchedRecords dupFetcher 3 1 = [mkArtwork 2] := by
  refine ⟨fun f sp rows tot art sel fuel rem cp upd =>
    selectGo_acc f sp rows tot art sel fuel rem cp upd,
    by decide, by decide, by decide⟩
